import Mathlib

/-!
Shallow embedding of the sounding-diagram engine of the repository
(functions `createTemperatureChart`, `createWindChart`, `createDataTable`
and the `isLowPerformance` classification of the aero-diagram script).
JavaScript numbers are idealized as real numbers; the step-based loops of
the source are embedded as recursive functions over the integers they
actually range over.
-/

namespace Vartovsk

/-- The sounding payload: parallel arrays `pressure`, `temperature`,
`dewpoint`, `u_wind`, `v_wind` (the `data` object consumed by the chart
builders). -/
structure SoundingData where
  pressure : List ℝ
  temperature : List ℝ
  dewpoint : List ℝ
  u_wind : List ℝ
  v_wind : List ℝ

/-- The data-model invariant: all five component arrays have equal length. -/
def SoundingData.WellFormed (d : SoundingData) : Prop :=
  d.temperature.length = d.pressure.length ∧
  d.dewpoint.length = d.pressure.length ∧
  d.u_wind.length = d.pressure.length ∧
  d.v_wind.length = d.pressure.length

/-- `const skewFactor = 0.04` in `createTemperatureChart`. -/
def skewFactor : ℝ := 0.04

/-- `data.temperature.map((t, i) => t + (1000 - data.pressure[i]) * skewFactor)`.
The indexed map over parallel arrays is embedded as `zipWith`, which agrees
with the source whenever the arrays have equal length (the data-model
invariant). -/
noncomputable def tempX (d : SoundingData) : List ℝ :=
  d.temperature.zipWith (fun t p => t + (1000 - p) * skewFactor) d.pressure

/-- `data.dewpoint.map((t, i) => t + (1000 - data.pressure[i]) * skewFactor)`. -/
noncomputable def dewpointX (d : SoundingData) : List ℝ :=
  d.dewpoint.zipWith (fun t p => t + (1000 - p) * skewFactor) d.pressure

/-- JavaScript `Math.atan2(y, x)`: the argument of the point `(x, y)`,
in `(-π, π]` (and `0` at the origin), embedded via `Complex.arg`. -/
noncomputable def atan2 (y x : ℝ) : ℝ :=
  Complex.arg ⟨x, y⟩

/-- JavaScript remainder `a % b`: `a - b * trunc (a / b)` (the result keeps
the sign of the dividend). -/
noncomputable def jsMod (a b : ℝ) : ℝ :=
  a - b * (if 0 ≤ a / b then ((⌊a / b⌋ : ℤ) : ℝ) else ((⌈a / b⌉ : ℤ) : ℝ))

/-- `Math.sqrt(u * u + v * v)` as computed for each level in
`createWindChart`. -/
noncomputable def speedOf (u v : ℝ) : ℝ :=
  Real.sqrt (u * u + v * v)

/-- `(Math.atan2(u, v) * 180 / Math.PI + 180) % 360` as computed for each
level in `createWindChart`. -/
noncomputable def dirOf (u v : ℝ) : ℝ :=
  jsMod (atan2 u v * 180 / Real.pi + 180) 360

/-- The `windSpeed` array built by the per-level loop of `createWindChart`
(loop over parallel arrays embedded as `zipWith`). -/
noncomputable def windSpeed (d : SoundingData) : List ℝ :=
  d.u_wind.zipWith (fun u v => speedOf u v) d.v_wind

/-- The `windDirection` array built by the per-level loop of
`createWindChart`. -/
noncomputable def windDirection (d : SoundingData) : List ℝ :=
  d.u_wind.zipWith (fun u v => dirOf u v) d.v_wind

/-- Per-row wind speed of `createDataTable`:
`Math.sqrt(u * u + v * v)` with `u = data.u_wind[i]`, `v = data.v_wind[i]`. -/
noncomputable def tableSpeed (u v : ℝ) : ℝ :=
  Real.sqrt (u * u + v * v)

/-- Per-row wind direction of `createDataTable`:
`(Math.atan2(u, v) * 180 / Math.PI + 180) % 360`. -/
noncomputable def tableDirection (u v : ℝ) : ℝ :=
  jsMod (atan2 u v * 180 / Real.pi + 180) 360

/-- The device classification of the aero script:
`window.innerWidth <= 768 || navigator.hardwareConcurrency <= 2 || mobileUA`. -/
def isLowPerformance (viewportWidth hardwareConcurrency : ℕ) (mobileUA : Bool) : Bool :=
  decide (viewportWidth ≤ 768) || decide (hardwareConcurrency ≤ 2) || mobileUA

/-- The descending pressure-sampling loop
`for (let p = start; p >= 100; p -= step)` shared by the isotherm and
dry-adiabat builders; it collects the successive values of `p`. -/
def loopDown (p : ℤ) (step : ℕ) : List ℤ :=
  if _h : 100 ≤ p ∧ 0 < step then p :: loopDown (p - step) step else []
  termination_by p.toNat
  decreasing_by omega

/-- The ascending nominal-temperature loop
`for (let temp = t; temp <= 40; temp += step)` of the isotherm builder;
it collects the successive values of `temp`. -/
def loopUp (t : ℤ) (step : ℕ) : List ℤ :=
  if _h : t ≤ 40 ∧ 0 < step then t :: loopUp (t + step) step else []
  termination_by (41 - t).toNat
  decreasing_by omega

/-- `isothermStep` selected by the density profile (20 constrained, 10 full). -/
def isothermStep (lowPerf : Bool) : ℕ := if lowPerf then 20 else 10

/-- `pressureStep` selected by the density profile (100 constrained, 50 full). -/
def pressureStep (lowPerf : Bool) : ℕ := if lowPerf then 100 else 50

/-- `adiabatStep` selected by the density profile (20 constrained, 10 full). -/
def adiabatStep (lowPerf : Bool) : ℕ := if lowPerf then 20 else 10

/-- `theta0Values` selected by the density profile. -/
def theta0Values (lowPerf : Bool) : List ℤ :=
  if lowPerf then [-40, 0, 40, 80] else [-40, -20, 0, 20, 40, 60, 80, 100]

/-- One isotherm polyline: points `(temp + (1000 - p) * skewFactor, p)` for
the sampled pressures. -/
noncomputable def isothermCurve (temp : ℤ) (pstep : ℕ) : List (ℝ × ℝ) :=
  (loopDown 1050 pstep).map (fun p : ℤ =>
    ((temp : ℝ) + (1000 - (p : ℝ)) * skewFactor, (p : ℝ)))

/-- The `isotherms` family of `createTemperatureChart`. -/
noncomputable def isothermCurves (lowPerf : Bool) : List (List (ℝ × ℝ)) :=
  (loopUp (-80) (isothermStep lowPerf)).map (fun temp : ℤ =>
    isothermCurve temp (pressureStep lowPerf))

/-- The dry-adiabat temperature at pressure `p`:
`theta0 * Math.pow(p / 1000, 0.286) - 273.15`. -/
noncomputable def dryAdiabatTemp (theta0 p : ℝ) : ℝ :=
  theta0 * (p / 1000) ^ (0.286 : ℝ) - 273.15

/-- One dry-adiabat polyline: points `(t + (1000 - p) * skewFactor, p)` with
`t = dryAdiabatTemp theta0 p` for the sampled pressures. -/
noncomputable def dryAdiabatCurve (theta0 : ℤ) (astep : ℕ) : List (ℝ × ℝ) :=
  (loopDown 1050 astep).map (fun p : ℤ =>
    (dryAdiabatTemp (theta0 : ℝ) (p : ℝ) + (1000 - (p : ℝ)) * skewFactor, (p : ℝ)))

/-- The `dryAdiabats` family of `createTemperatureChart`. -/
noncomputable def dryAdiabatCurves (lowPerf : Bool) : List (List (ℝ × ℝ)) :=
  (theta0Values lowPerf).map (fun theta0 : ℤ =>
    dryAdiabatCurve theta0 (adiabatStep lowPerf))

/-- The fixed `pressureLevels` of the isobar builder. -/
def pressureLevels : List ℤ := [1000, 850, 700, 500, 300, 200, 100]

/-- The `isobars` family of `createTemperatureChart`: one two-point segment
per standard level. -/
noncomputable def isobarSegments : List (List (ℝ × ℝ)) :=
  pressureLevels.map (fun p : ℤ =>
    [(-100 + (1000 - (p : ℝ)) * skewFactor, (p : ℝ)),
     (60 + (1000 - (p : ℝ)) * skewFactor, (p : ℝ))])

/-- The full output of `createTemperatureChart`: the two data traces and the
three background-grid families (styling metadata dropped). -/
structure TempChartOutput where
  tempTrace : List (ℝ × ℝ)
  dewTrace : List (ℝ × ℝ)
  isotherms : List (List (ℝ × ℝ))
  dryAdiabats : List (List (ℝ × ℝ))
  isobars : List (List (ℝ × ℝ))

/-- `createTemperatureChart` as a pure geometry function of the density flag
and the sounding. -/
noncomputable def createTemperatureChart (lowPerf : Bool) (d : SoundingData) : TempChartOutput :=
  { tempTrace := (tempX d).zip d.pressure
    dewTrace := (dewpointX d).zip d.pressure
    isotherms := isothermCurves lowPerf
    dryAdiabats := dryAdiabatCurves lowPerf
    isobars := isobarSegments }

/-- `numFlags = Math.floor(speed / 50)` of the barb builder. -/
noncomputable def numFlags (speed : ℝ) : ℤ := ⌊speed / 50⌋

/-- `numBarbs = Math.floor((speed - numFlags * 50) / 10)` of the barb
builder. -/
noncomputable def numBarbs (speed : ℝ) : ℤ := ⌊(speed - numFlags speed * 50) / 10⌋

/-- The flag-drawing loop of `createWindChart`: flag number `f` is a filled
triangle at shaft position `currentPos`, and `currentPos` decreases by
`0.15` after each flag. The recursion peels flags off in loop order with the
position threaded as state. -/
noncomputable def flagPolys (dirRad x1 p : ℝ) : ℕ → ℝ → List (List (ℝ × ℝ))
  | 0, _ => []
  | n + 1, pos =>
      [(x1 * pos, p), (x1 * pos - 3 * Real.cos dirRad, p),
       (x1 * pos - 1.5 * Real.sin dirRad, p)] ::
        flagPolys dirRad x1 p n (pos - 0.15)

/-- The short-tick loop of `createWindChart`: tick number `b` is a segment
at shaft position `currentPos`, and `currentPos` decreases by `0.1` after
each tick. -/
noncomputable def barbPolys (dirRad x1 p : ℝ) : ℕ → ℝ → List (List (ℝ × ℝ))
  | 0, _ => []
  | n + 1, pos =>
      [(x1 * pos, p), (x1 * pos - 2 * Real.cos dirRad, p)] ::
        barbPolys dirRad x1 p n (pos - 0.1)

/-- One wind-barb glyph: shaft, pennant (flag) polylines and short-tick
polylines, for a level with the given speed, direction and pressure. -/
structure BarbGlyph where
  shaft : List (ℝ × ℝ)
  flags : List (List (ℝ × ℝ))
  ticks : List (List (ℝ × ℝ))

/-- The per-level glyph construction of `createWindChart`: shaft from `0` to
`x1 = -barbLength * sin(dirRad)` with `barbLength = min(speed / 5, 15)`,
then the flag loop starting at `currentPos = 0.7` and the tick loop starting
where the flag loop left `currentPos`
(`0.7 - 0.15 * numFlags` after `numFlags` decrements). -/
noncomputable def barbGlyph (speed dir p : ℝ) : BarbGlyph :=
  let barbLength := min (speed / 5) 15
  let dirRad := dir * Real.pi / 180
  let x1 := -barbLength * Real.sin dirRad
  { shaft := [(0, p), (x1, p)]
    flags := flagPolys dirRad x1 p (numFlags speed).toNat 0.7
    ticks := barbPolys dirRad x1 p (numBarbs speed).toNat
      (0.7 - 0.15 * ((numFlags speed).toNat : ℝ)) }

/-- The decimation loop `for (let i = 0; i < n; i += k)` of
`createWindChart`; it collects the successive values of `i`. -/
def selectLoop (i n k : ℕ) : List ℕ :=
  if _h : i < n ∧ 0 < k then i :: selectLoop (i + k) n k else []
  termination_by n - i
  decreasing_by omega

/-- The indices of the levels that receive a barb:
`barbInterval = Math.max(1, Math.floor(n / 20))` and the loop starts at 0. -/
def barbIndices (n : ℕ) : List ℕ :=
  selectLoop 0 n (max 1 (n / 20))

/-- The full output of `createWindChart`: the wind-speed trace and one barb
glyph per selected level (styling metadata dropped). -/
structure WindChartOutput where
  speedTrace : List (ℝ × ℝ)
  barbs : List BarbGlyph

/-- `createWindChart` as a pure geometry function of the sounding. -/
noncomputable def createWindChart (d : SoundingData) : WindChartOutput :=
  { speedTrace := (windSpeed d).zip d.pressure
    barbs := (barbIndices d.pressure.length).map (fun i =>
      barbGlyph ((windSpeed d).getD i 0) ((windDirection d).getD i 0)
        (d.pressure.getD i 0)) }

/-- One rendered row of the sounding table (the five `<td>` values of
`createDataTable`, before `toFixed` formatting). -/
structure TableRow where
  pressure : ℝ
  temperature : ℝ
  dewpoint : ℝ
  speed : ℝ
  direction : ℝ

/-- One row of the sounding table built by `createDataTable` for level `i`,
with speed and direction recomputed in place from `u_wind[i]`, `v_wind[i]`. -/
noncomputable def tableRow (d : SoundingData) (i : ℕ) : TableRow :=
  { pressure := d.pressure.getD i 0
    temperature := d.temperature.getD i 0
    dewpoint := d.dewpoint.getD i 0
    speed := tableSpeed (d.u_wind.getD i 0) (d.v_wind.getD i 0)
    direction := tableDirection (d.u_wind.getD i 0) (d.v_wind.getD i 0) }

/-- The row list of `createDataTable`
(`for (let i = 0; i < data.pressure.length; i++)`). -/
noncomputable def createDataTable (d : SoundingData) : List TableRow :=
  (List.range d.pressure.length).map (fun i => tableRow d i)

/-! ## Helper lemmas -/

/-- Element access of a pointwise combination of two equally long arrays. -/
lemma zipWith_getD (f : ℝ → ℝ → ℝ) (l1 l2 : List ℝ) (i : ℕ)
    (h : l1.length = l2.length) (hi : i < l1.length) :
    (l1.zipWith f l2).getD i 0 = f (l1.getD i 0) (l2.getD i 0) := by
  have h2 : i < l2.length := h ▸ hi
  have hz : i < (l1.zipWith f l2).length := by
    rw [List.length_zipWith]
    omega
  rw [List.getD_eq_getElem _ _ hz, List.getD_eq_getElem _ _ hi, List.getD_eq_getElem _ _ h2]
  exact List.getElem_zipWith

/-- Element access of the pairing of two equally long arrays. -/
lemma zip_getD (l1 l2 : List ℝ) (i : ℕ)
    (h : l1.length = l2.length) (hi : i < l1.length) :
    (l1.zip l2).getD i (0, 0) = (l1.getD i 0, l2.getD i 0) := by
  have h2 : i < l2.length := h ▸ hi
  have hz : i < (l1.zip l2).length := by
    rw [List.length_zip]
    omega
  rw [List.getD_eq_getElem _ _ hz, List.getD_eq_getElem _ _ hi, List.getD_eq_getElem _ _ h2]
  exact List.getElem_zip

/-- Every element of a pointwise combination comes from a pair of elements. -/
lemma of_mem_zipWith (f : ℝ → ℝ → ℝ) (l1 l2 : List ℝ) (x : ℝ)
    (hx : x ∈ l1.zipWith f l2) : ∃ u v, u ∈ l1 ∧ v ∈ l2 ∧ x = f u v := by
  rw [List.mem_iff_getElem] at hx
  obtain ⟨i, hi, rfl⟩ := hx
  rw [List.length_zipWith] at hi
  have hi1 : i < l1.length := by omega
  have hi2 : i < l2.length := by omega
  refine ⟨l1[i], l2[i], List.getElem_mem _, List.getElem_mem _, ?_⟩
  exact List.getElem_zipWith

/-- The JavaScript remainder of a positive dividend by a positive divisor
lies in `[0, divisor)`. -/
lemma jsMod_bounds (a b : ℝ) (ha : 0 < a) (hb : 0 < b) :
    0 ≤ jsMod a b ∧ jsMod a b < b := by
  have hab : 0 ≤ a / b := le_of_lt (div_pos ha hb)
  have hkey : jsMod a b = b * Int.fract (a / b) := by
    unfold jsMod Int.fract
    rw [if_pos hab]
    field_simp
  constructor
  · rw [hkey]
    exact mul_nonneg hb.le (Int.fract_nonneg _)
  · rw [hkey]
    calc b * Int.fract (a / b) < b * 1 := mul_lt_mul_of_pos_left (Int.fract_lt_one _) hb
      _ = b := mul_one b

/-- The embedded `Math.atan2` ranges over `(-π, π]`. -/
lemma atan2_bounds (y x : ℝ) : -Real.pi < atan2 y x ∧ atan2 y x ≤ Real.pi :=
  ⟨Complex.neg_pi_lt_arg _, Complex.arg_le_pi _⟩

/-- The wind direction formula always lands in `[0, 360)`. -/
lemma dirOf_bounds (u v : ℝ) : 0 ≤ dirOf u v ∧ dirOf u v < 360 := by
  have hpi := Real.pi_pos
  have h1 : -Real.pi < atan2 u v := (atan2_bounds u v).1
  have ha : 0 < atan2 u v * 180 / Real.pi + 180 := by
    have h2 : -Real.pi * 180 / Real.pi < atan2 u v * 180 / Real.pi := by
      gcongr
    have h3 : -Real.pi * 180 / Real.pi = -180 := by
      field_simp
      ring
    linarith
  exact jsMod_bounds _ 360 ha (by norm_num)

/-- `Math.atan2(0, -10) = π`. -/
lemma atan2_zero_neg_ten : atan2 0 (-10) = Real.pi := by
  have h : (⟨-10, 0⟩ : ℂ) = ((-10 : ℝ) : ℂ) := by
    apply Complex.ext <;> simp
  unfold atan2
  rw [h]
  exact Complex.arg_ofReal_of_neg (by norm_num)

/-- Concrete case: the wind `(u, v) = (0, -10)` has speed `10`. -/
lemma speedOf_concrete : speedOf 0 (-10) = 10 := by
  unfold speedOf
  rw [show (0 : ℝ) * 0 + (-10) * (-10) = 10 ^ 2 by norm_num]
  exact Real.sqrt_sq (by norm_num)

/-- Concrete case: the wind `(u, v) = (0, -10)` has direction `0`. -/
lemma dirOf_concrete : dirOf 0 (-10) = 0 := by
  unfold dirOf
  rw [atan2_zero_neg_ten]
  rw [show Real.pi * 180 / Real.pi + 180 = 360 by
    field_simp
    ring]
  unfold jsMod
  norm_num

/-- Membership in the decimation loop output: exactly the indices
`start + m * k` below `n`. -/
lemma selectLoop_mem (i n k : ℕ) (j : ℕ) :
    0 < k → (j ∈ selectLoop i n k ↔ ∃ m, j = i + m * k ∧ j < n) := by
  induction i, n, k using selectLoop.induct with
  | case1 i n k h ih =>
    intro hk
    replace ih := ih hk
    rw [selectLoop, dif_pos h]
    simp only [List.mem_cons, ih]
    constructor
    · rintro (rfl | ⟨m, rfl, hj⟩)
      · exact ⟨0, by omega, h.1⟩
      · exact ⟨m + 1, by ring, hj⟩
    · rintro ⟨m, rfl, hj⟩
      match m with
      | 0 => left; omega
      | m + 1 => right; exact ⟨m, by ring, hj⟩
  | case2 i n k h =>
    intro hk
    rw [selectLoop, dif_neg h]
    simp only [List.not_mem_nil, false_iff]
    rintro ⟨m, rfl, hj⟩
    omega

/-- The decimation loop visits `⌈(n - i) / k⌉` indices. -/
lemma selectLoop_length (i n k : ℕ) :
    0 < k → (selectLoop i n k).length = (n - i + k - 1) / k := by
  induction i, n, k using selectLoop.induct with
  | case1 i n k h ih =>
    intro hk
    replace ih := ih hk
    rw [selectLoop, dif_pos h]
    rw [List.length_cons, ih]
    rcases le_or_lt k (n - i) with hle | hlt
    · have e1 : n - (i + k) + k - 1 = n - i - 1 := by omega
      have e2 : n - i + k - 1 = (n - i - 1) + k := by omega
      rw [e1, e2, Nat.add_div_right _ hk]
    · have e1 : n - (i + k) + k - 1 = k - 1 := by omega
      have e2 : n - i + k - 1 = (n - i - 1) + k := by omega
      rw [e1, e2, Nat.add_div_right _ hk, Nat.div_eq_of_lt (by omega),
        Nat.div_eq_of_lt (by omega)]
  | case2 i n k h =>
    intro hk
    rw [selectLoop, dif_neg h]
    have e : n - i + k - 1 = k - 1 := by omega
    rw [e, Nat.div_eq_of_lt (by omega)]
    rfl

/-- The flag loop draws one triangle per iteration. -/
lemma flagPolys_length (dirRad x1 p : ℝ) (n : ℕ) (pos : ℝ) :
    (flagPolys dirRad x1 p n pos).length = n := by
  induction n generalizing pos with
  | zero => rfl
  | succ m ih => simp [flagPolys, ih]

/-- The tick loop draws one segment per iteration. -/
lemma barbPolys_length (dirRad x1 p : ℝ) (n : ℕ) (pos : ℝ) :
    (barbPolys dirRad x1 p n pos).length = n := by
  induction n generalizing pos with
  | zero => rfl
  | succ m ih => simp [barbPolys, ih]

/-- The flag count is nonnegative for a nonnegative speed. -/
lemma numFlags_nonneg (s : ℝ) (h : 0 ≤ s) : 0 ≤ numFlags s :=
  Int.floor_nonneg.mpr (by positivity)

/-- What remains of the speed after the pennants is nonnegative. -/
lemma flags_remainder_nonneg (s : ℝ) : 0 ≤ s - (numFlags s : ℝ) * 50 := by
  have h2 := mul_le_mul_of_nonneg_right (Int.floor_le (s / 50))
    (by norm_num : (0 : ℝ) ≤ 50)
  rw [div_mul_cancel₀ _ (by norm_num : (50 : ℝ) ≠ 0)] at h2
  unfold numFlags
  linarith

/-- The tick count is nonnegative. -/
lemma numBarbs_nonneg (s : ℝ) : 0 ≤ numBarbs s :=
  Int.floor_nonneg.mpr (div_nonneg (flags_remainder_nonneg s) (by norm_num))

/-- After pennants and ticks, the undrawn remainder of the speed lies in
`[0, 10)`. -/
lemma barbs_remainder_bounds (s : ℝ) :
    0 ≤ s - ((numFlags s : ℝ) * 50 + (numBarbs s : ℝ) * 10) ∧
    s - ((numFlags s : ℝ) * 50 + (numBarbs s : ℝ) * 10) < 10 := by
  have hr1 := flags_remainder_nonneg s
  have hlow := mul_le_mul_of_nonneg_right
    (Int.floor_le ((s - (numFlags s : ℝ) * 50) / 10)) (by norm_num : (0 : ℝ) ≤ 10)
  rw [div_mul_cancel₀ _ (by norm_num : (10 : ℝ) ≠ 0)] at hlow
  have hhi := mul_lt_mul_of_pos_right
    (Int.lt_floor_add_one ((s - (numFlags s : ℝ) * 50) / 10)) (by norm_num : (0 : ℝ) < 10)
  rw [div_mul_cancel₀ _ (by norm_num : (10 : ℝ) ≠ 0)] at hhi
  unfold numBarbs
  constructor <;> nlinarith

/-- The head pressure is always sampled by the descending loop. -/
lemma self_mem_loopDown (p : ℤ) (step : ℕ) (h1 : 100 ≤ p) (h2 : 0 < step) :
    p ∈ loopDown p step := by
  rw [loopDown, dif_pos ⟨h1, h2⟩]
  exact List.mem_cons_self _ _

/-- The starting nominal temperature is always visited by the ascending
loop. -/
lemma self_mem_loopUp (t : ℤ) (step : ℕ) (h1 : t ≤ 40) (h2 : 0 < step) :
    t ∈ loopUp t step := by
  rw [loopUp, dif_pos ⟨h1, h2⟩]
  exact List.mem_cons_self _ _

/-! ## Claim theorems -/

/-- C1: for every well-formed sounding and every level index, the Skew-T
projector emits `x_temperature[i] = temperature[i] + (1000 - pressure[i]) *
skewFactor` and `x_dewpoint[i] = dewpoint[i] + (1000 - pressure[i]) *
skewFactor` with shared `y[i] = pressure[i]`; both output traces have the
length of the sounding, and `skewFactor` is the fixed constant `0.04`. -/
theorem skewt_projection (lp : Bool) (d : SoundingData) (hw : d.WellFormed) :
    ((createTemperatureChart lp d).tempTrace.length = d.pressure.length ∧
     (createTemperatureChart lp d).dewTrace.length = d.pressure.length) ∧
    (∀ i, i < d.pressure.length →
      (createTemperatureChart lp d).tempTrace.getD i (0, 0) =
        (d.temperature.getD i 0 + (1000 - d.pressure.getD i 0) * skewFactor,
         d.pressure.getD i 0) ∧
      (createTemperatureChart lp d).dewTrace.getD i (0, 0) =
        (d.dewpoint.getD i 0 + (1000 - d.pressure.getD i 0) * skewFactor,
         d.pressure.getD i 0)) ∧
    skewFactor = 0.04 := by
  obtain ⟨h1, h2, h3, h4⟩ := hw
  have hlt : (tempX d).length = d.pressure.length := by
    unfold tempX
    rw [List.length_zipWith]
    omega
  have hld : (dewpointX d).length = d.pressure.length := by
    unfold dewpointX
    rw [List.length_zipWith]
    omega
  simp only [createTemperatureChart]
  refine ⟨⟨?_, ?_⟩, ?_, rfl⟩
  · rw [List.length_zip]
    omega
  · rw [List.length_zip]
    omega
  intro i hi
  constructor
  · rw [zip_getD _ _ i hlt (by omega)]
    unfold tempX
    rw [zipWith_getD _ _ _ i h1 (by omega)]
  · rw [zip_getD _ _ i hld (by omega)]
    unfold dewpointX
    rw [zipWith_getD _ _ _ i h2 (by omega)]

/-- Witness for C1 at a concrete one-level sounding. -/
theorem skewt_projection_witness :
    (SoundingData.mk [1000] [20] [10] [0] [0]).WellFormed ∧
    (createTemperatureChart false (SoundingData.mk [1000] [20] [10] [0] [0])).tempTrace.getD
        0 (0, 0) =
      ((20 : ℝ) + (1000 - 1000) * skewFactor, (1000 : ℝ)) := by
  have hw : (SoundingData.mk [1000] [20] [10] [0] [0]).WellFormed := ⟨rfl, rfl, rfl, rfl⟩
  refine ⟨hw, ?_⟩
  have h := (skewt_projection false _ hw).2.1 0 (by norm_num)
  simpa using h.1

/-- C9: for every well-formed sounding and level, subtracting
`(1000 - pressure[i]) * skewFactor` from the projected coordinate recovers
the original temperature and dewpoint exactly. -/
theorem skew_roundtrip (d : SoundingData) (hw : d.WellFormed) (i : ℕ)
    (hi : i < d.pressure.length) :
    (tempX d).getD i 0 - (1000 - d.pressure.getD i 0) * skewFactor =
      d.temperature.getD i 0 ∧
    (dewpointX d).getD i 0 - (1000 - d.pressure.getD i 0) * skewFactor =
      d.dewpoint.getD i 0 := by
  obtain ⟨h1, h2, _, _⟩ := hw
  constructor
  · unfold tempX
    rw [zipWith_getD _ _ _ i h1 (by omega)]
    ring
  · unfold dewpointX
    rw [zipWith_getD _ _ _ i h2 (by omega)]
    ring

/-- Witness for C9 at a concrete one-level sounding. -/
theorem skew_roundtrip_witness :
    (SoundingData.mk [850] [20] [10] [0] [0]).WellFormed ∧
    (tempX (SoundingData.mk [850] [20] [10] [0] [0])).getD 0 0 -
        (1000 - (SoundingData.mk [850] [20] [10] [0] [0]).pressure.getD 0 0) * skewFactor =
      (20 : ℝ) := by
  have hw : (SoundingData.mk [850] [20] [10] [0] [0]).WellFormed := ⟨rfl, rfl, rfl, rfl⟩
  refine ⟨hw, ?_⟩
  have h := (skew_roundtrip _ hw 0 (by norm_num)).1
  simpa using h

/-- C3: the background-grid families of `createTemperatureChart` (isotherm
set, dry-adiabat set, isobar set) are identical across any two soundings at
the same density profile: they read no field of the sounding. -/
theorem background_grid_sounding_independent (lp : Bool) (d1 d2 : SoundingData) :
    (createTemperatureChart lp d1).isotherms = (createTemperatureChart lp d2).isotherms ∧
    (createTemperatureChart lp d1).dryAdiabats = (createTemperatureChart lp d2).dryAdiabats ∧
    (createTemperatureChart lp d1).isobars = (createTemperatureChart lp d2).isobars :=
  ⟨rfl, rfl, rfl⟩

/-- C10: for every level of the same well-formed sounding, the wind speed
and direction placed in the data table equal the ones computed for the wind
chart; the two call sites compute with the identical expressions. -/
theorem table_chart_wind_agree (d : SoundingData) (hw : d.WellFormed) (i : ℕ)
    (hi : i < d.pressure.length) :
    ((tableRow d i).speed = (windSpeed d).getD i 0 ∧
     (tableRow d i).direction = (windDirection d).getD i 0) ∧
    (∀ u v : ℝ, tableSpeed u v = speedOf u v ∧ tableDirection u v = dirOf u v) := by
  obtain ⟨_, _, h3, h4⟩ := hw
  have h34 : d.u_wind.length = d.v_wind.length := by omega
  refine ⟨⟨?_, ?_⟩, fun u v => ⟨rfl, rfl⟩⟩
  · simp only [tableRow]
    unfold windSpeed
    rw [zipWith_getD _ _ _ i h34 (by omega)]
    rfl
  · simp only [tableRow]
    unfold windDirection
    rw [zipWith_getD _ _ _ i h34 (by omega)]
    rfl

/-- Witness for C10 at a concrete one-level sounding. -/
theorem table_chart_wind_agree_witness :
    (SoundingData.mk [1000] [20] [10] [3] [4]).WellFormed ∧
    (tableRow (SoundingData.mk [1000] [20] [10] [3] [4]) 0).speed =
      (windSpeed (SoundingData.mk [1000] [20] [10] [3] [4])).getD 0 0 := by
  have hw : (SoundingData.mk [1000] [20] [10] [3] [4]).WellFormed := ⟨rfl, rfl, rfl, rfl⟩
  exact ⟨hw, (table_chart_wind_agree _ hw 0 (by norm_num)).1.1⟩

/-- C4: every resolved wind speed is nonnegative and every resolved wind
direction lies in `[0, 360)`; in particular `u = 0, v = -10` yields speed
`10` and direction `0`. -/
theorem wind_resolver_range (d : SoundingData) :
    (∀ s ∈ windSpeed d, 0 ≤ s) ∧
    (∀ x ∈ windDirection d, 0 ≤ x ∧ x < 360) ∧
    speedOf 0 (-10) = 10 ∧ dirOf 0 (-10) = 0 := by
  refine ⟨?_, ?_, speedOf_concrete, dirOf_concrete⟩
  · intro s hs
    obtain ⟨u, v, _, _, rfl⟩ := of_mem_zipWith _ _ _ _ hs
    exact Real.sqrt_nonneg _
  · intro x hx
    obtain ⟨u, v, _, _, rfl⟩ := of_mem_zipWith _ _ _ _ hx
    exact dirOf_bounds u v

/-- Witness for C4 at a concrete one-level sounding with `u = 0, v = -10`. -/
theorem wind_resolver_range_witness :
    speedOf 0 (-10) ∈ windSpeed (SoundingData.mk [1000] [20] [10] [0] [-10]) ∧
    0 ≤ speedOf 0 (-10) := by
  have hmem : speedOf 0 (-10) ∈ windSpeed (SoundingData.mk [1000] [20] [10] [0] [-10]) := by
    unfold windSpeed
    simp
  exact ⟨hmem, (wind_resolver_range (SoundingData.mk [1000] [20] [10] [0] [-10])).1 _ hmem⟩

/-- C5: a barb glyph for speed `s ≥ 0` carries exactly `⌊s / 50⌋` pennants
and `⌊(s - ⌊s / 50⌋ * 50) / 10⌋` ticks, the undrawn remainder lies in
`[0, 10)`, and speed `65` yields one pennant and one tick. -/
theorem barb_glyph_decomposition (s dir p : ℝ) (hs : 0 ≤ s) :
    (((barbGlyph s dir p).flags.length : ℤ) = ⌊s / 50⌋ ∧
     ((barbGlyph s dir p).ticks.length : ℤ) = ⌊(s - ((⌊s / 50⌋ : ℤ) : ℝ) * 50) / 10⌋) ∧
    (0 ≤ s - (((⌊s / 50⌋ : ℤ) : ℝ) * 50 +
        ((⌊(s - ((⌊s / 50⌋ : ℤ) : ℝ) * 50) / 10⌋ : ℤ) : ℝ) * 10) ∧
     s - (((⌊s / 50⌋ : ℤ) : ℝ) * 50 +
        ((⌊(s - ((⌊s / 50⌋ : ℤ) : ℝ) * 50) / 10⌋ : ℤ) : ℝ) * 10) < 10) ∧
    ((barbGlyph 65 dir p).flags.length = 1 ∧ (barbGlyph 65 dir p).ticks.length = 1) := by
  have hf65 : numFlags 65 = 1 := by
    unfold numFlags
    rw [Int.floor_eq_iff]
    norm_num
  have hb65 : numBarbs 65 = 1 := by
    unfold numBarbs
    rw [hf65]
    rw [Int.floor_eq_iff]
    norm_num
  refine ⟨⟨?_, ?_⟩, ⟨?_, ?_⟩, ?_, ?_⟩
  · simp only [barbGlyph, flagPolys_length]
    rw [Int.toNat_of_nonneg (numFlags_nonneg s hs)]
    rfl
  · simp only [barbGlyph, barbPolys_length]
    rw [Int.toNat_of_nonneg (numBarbs_nonneg s)]
    rfl
  · have h := (barbs_remainder_bounds s).1
    simp only [numFlags, numBarbs] at h
    exact h
  · have h := (barbs_remainder_bounds s).2
    simp only [numFlags, numBarbs] at h
    exact h
  · simp only [barbGlyph, flagPolys_length, hf65]
    rfl
  · simp only [barbGlyph, barbPolys_length, hb65]
    rfl

/-- Witness for C5 at speed `65`. -/
theorem barb_glyph_decomposition_witness :
    (0 : ℝ) ≤ 65 ∧
    (barbGlyph 65 0 1000).flags.length = 1 ∧ (barbGlyph 65 0 1000).ticks.length = 1 :=
  ⟨by norm_num, (barb_glyph_decomposition 65 0 1000 (by norm_num)).2.2⟩

/-- C2: every point emitted for a configured dry-adiabat reference value
satisfies, before skewing, the Poisson relation
`T(p) = theta0 * (p / 1000) ^ 0.286 - 273.15` with exponent exactly `0.286`
and offset exactly `-273.15`. -/
theorem dry_adiabat_poisson (lp : Bool) (theta0 : ℤ) (_ht : theta0 ∈ theta0Values lp)
    (pt : ℝ × ℝ) (hpt : pt ∈ dryAdiabatCurve theta0 (adiabatStep lp)) :
    pt.1 - (1000 - pt.2) * skewFactor =
      (theta0 : ℝ) * (pt.2 / 1000) ^ (0.286 : ℝ) - 273.15 := by
  obtain ⟨p, hp, rfl⟩ := List.mem_map.mp hpt
  simp only [dryAdiabatTemp]
  ring

/-- Witness for C2 at `theta0 = -40`, full profile, pressure `1050`. -/
theorem dry_adiabat_poisson_witness :
    ((-40 : ℤ) ∈ theta0Values false ∧
     (dryAdiabatTemp ((-40 : ℤ) : ℝ) ((1050 : ℤ) : ℝ) +
        (1000 - ((1050 : ℤ) : ℝ)) * skewFactor, ((1050 : ℤ) : ℝ)) ∈
       dryAdiabatCurve (-40) (adiabatStep false)) ∧
    (dryAdiabatTemp ((-40 : ℤ) : ℝ) ((1050 : ℤ) : ℝ) +
        (1000 - ((1050 : ℤ) : ℝ)) * skewFactor) - (1000 - ((1050 : ℤ) : ℝ)) * skewFactor =
      ((-40 : ℤ) : ℝ) * (((1050 : ℤ) : ℝ) / 1000) ^ (0.286 : ℝ) - 273.15 := by
  have hm : (-40 : ℤ) ∈ theta0Values false := by norm_num [theta0Values]
  have hpt : (dryAdiabatTemp ((-40 : ℤ) : ℝ) ((1050 : ℤ) : ℝ) +
      (1000 - ((1050 : ℤ) : ℝ)) * skewFactor, ((1050 : ℤ) : ℝ)) ∈
      dryAdiabatCurve (-40) (adiabatStep false) := by
    unfold dryAdiabatCurve
    rw [List.mem_map]
    refine ⟨1050, ?_, rfl⟩
    exact self_mem_loopDown 1050 (adiabatStep false) (by norm_num) (by simp [adiabatStep])
  exact ⟨⟨hm, hpt⟩, dry_adiabat_poisson false (-40) hm _ hpt⟩

/-- C6: the wind-barb decimation selects exactly the level indices
`0, k, 2k, ...` below `n` with `k = max 1 (n / 20)`, the number of selected
levels is uniformly bounded (by 39, within a factor of two of the intended
~20), and for `n = 5` every level is selected. -/
theorem barb_decimation (n : ℕ) :
    (∀ j, j ∈ barbIndices n ↔ ∃ m, j = m * max 1 (n / 20) ∧ j < n) ∧
    (barbIndices n).length ≤ 39 ∧
    barbIndices 5 = [0, 1, 2, 3, 4] := by
  have hk : 0 < max 1 (n / 20) := by omega
  refine ⟨?_, ?_, ?_⟩
  · intro j
    rw [barbIndices, selectLoop_mem _ _ _ _ hk]
    constructor
    · rintro ⟨m, rfl, hj⟩
      exact ⟨m, by omega, hj⟩
    · rintro ⟨m, rfl, hj⟩
      exact ⟨m, by omega, hj⟩
  · rw [barbIndices, selectLoop_length _ _ _ hk]
    have h39 : n ≤ 39 * max 1 (n / 20) := by omega
    have hlt : (n - 0 + max 1 (n / 20) - 1) / max 1 (n / 20) < 40 := by
      rw [Nat.div_lt_iff_lt_mul hk]
      omega
    omega
  · simp [barbIndices, selectLoop]

/-- C8: relative to the full profile, the constrained profile emits
fewer-or-equal isotherm curves and dry-adiabat curves, and every constrained
curve has strictly fewer sampled points than every full curve of the same
family. -/
theorem density_profile_monotone :
    ((isothermCurves true).length ≤ (isothermCurves false).length ∧
     (dryAdiabatCurves true).length ≤ (dryAdiabatCurves false).length) ∧
    (∀ c1 ∈ isothermCurves true, ∀ c2 ∈ isothermCurves false, c1.length < c2.length) ∧
    (∀ c1 ∈ dryAdiabatCurves true, ∀ c2 ∈ dryAdiabatCurves false, c1.length < c2.length) := by
  have hiso_t : ∀ c ∈ isothermCurves true, c.length = 10 := by
    intro c hc
    obtain ⟨t, ht, rfl⟩ := List.mem_map.mp hc
    simp [isothermCurve, pressureStep, loopDown]
  have hiso_f : ∀ c ∈ isothermCurves false, c.length = 20 := by
    intro c hc
    obtain ⟨t, ht, rfl⟩ := List.mem_map.mp hc
    simp [isothermCurve, pressureStep, loopDown]
  have hadi_t : ∀ c ∈ dryAdiabatCurves true, c.length = 48 := by
    intro c hc
    obtain ⟨t, ht, rfl⟩ := List.mem_map.mp hc
    simp [dryAdiabatCurve, adiabatStep, loopDown]
  have hadi_f : ∀ c ∈ dryAdiabatCurves false, c.length = 96 := by
    intro c hc
    obtain ⟨t, ht, rfl⟩ := List.mem_map.mp hc
    simp [dryAdiabatCurve, adiabatStep, loopDown]
  refine ⟨⟨?_, ?_⟩, ?_, ?_⟩
  · have h1 : (isothermCurves true).length = 7 := by
      simp [isothermCurves, isothermStep, loopUp]
    have h2 : (isothermCurves false).length = 13 := by
      simp [isothermCurves, isothermStep, loopUp]
    omega
  · have h1 : (dryAdiabatCurves true).length = 4 := by
      simp [dryAdiabatCurves, theta0Values]
    have h2 : (dryAdiabatCurves false).length = 8 := by
      simp [dryAdiabatCurves, theta0Values]
    omega
  · intro c1 hc1 c2 hc2
    rw [hiso_t c1 hc1, hiso_f c2 hc2]
    norm_num
  · intro c1 hc1 c2 hc2
    rw [hadi_t c1 hc1, hadi_f c2 hc2]
    norm_num

/-- Witness for C8 at the two first isotherm curves and the two first
dry-adiabat curves. -/
theorem density_profile_monotone_witness :
    (isothermCurve (-80) (pressureStep true) ∈ isothermCurves true ∧
     isothermCurve (-80) (pressureStep false) ∈ isothermCurves false ∧
     (isothermCurve (-80) (pressureStep true)).length <
       (isothermCurve (-80) (pressureStep false)).length) ∧
    (dryAdiabatCurve (-40) (adiabatStep true) ∈ dryAdiabatCurves true ∧
     dryAdiabatCurve (-40) (adiabatStep false) ∈ dryAdiabatCurves false ∧
     (dryAdiabatCurve (-40) (adiabatStep true)).length <
       (dryAdiabatCurve (-40) (adiabatStep false)).length) := by
  have h1 : isothermCurve (-80) (pressureStep true) ∈ isothermCurves true := by
    unfold isothermCurves
    rw [List.mem_map]
    exact ⟨-80, self_mem_loopUp (-80) _ (by norm_num) (by simp [isothermStep]), rfl⟩
  have h2 : isothermCurve (-80) (pressureStep false) ∈ isothermCurves false := by
    unfold isothermCurves
    rw [List.mem_map]
    exact ⟨-80, self_mem_loopUp (-80) _ (by norm_num) (by simp [isothermStep]), rfl⟩
  have h3 : dryAdiabatCurve (-40) (adiabatStep true) ∈ dryAdiabatCurves true := by
    unfold dryAdiabatCurves
    rw [List.mem_map]
    exact ⟨-40, by norm_num [theta0Values], rfl⟩
  have h4 : dryAdiabatCurve (-40) (adiabatStep false) ∈ dryAdiabatCurves false := by
    unfold dryAdiabatCurves
    rw [List.mem_map]
    exact ⟨-40, by norm_num [theta0Values], rfl⟩
  exact ⟨⟨h1, h2, density_profile_monotone.2.1 _ h1 _ h2⟩,
         ⟨h3, h4, density_profile_monotone.2.2 _ h3 _ h4⟩⟩

/-- C7 counterexample: in the constrained profile the emitted isotherm
polyline for `t = -80` (a member of the emitted family) contains no sample
at pressure 100 hPa, so the sampling is not "down to 100 hPa inclusive". -/
theorem isotherm_sampling_counterexample :
    isothermCurve (-80) (pressureStep true) ∈ isothermCurves true ∧
    (100 : ℝ) ∉ (isothermCurve (-80) (pressureStep true)).map Prod.snd := by
  constructor
  · unfold isothermCurves
    rw [List.mem_map]
    exact ⟨-80, self_mem_loopUp (-80) _ (by norm_num) (by simp [isothermStep]), rfl⟩
  · simp only [isothermCurve, pressureStep]
    simp [loopDown]

/-- C7 amended: each isotherm polyline holds its nominal temperature `t`
constant and samples pressures `1050, 1050 - step, ...` for as long as the
value stays at or above 100 hPa; with the full profile (steps 10 and 50)
the samples end at 100 hPa, with the constrained profile (steps 20 and 100)
they end at 150 hPa, so 100 hPa itself is sampled only in full mode. -/
theorem isotherm_sampling :
    isothermCurves false =
      ([-80, -70, -60, -50, -40, -30, -20, -10, 0, 10, 20, 30, 40] : List ℤ).map
        (fun t : ℤ =>
          ([1050, 1000, 950, 900, 850, 800, 750, 700, 650, 600, 550, 500, 450, 400,
            350, 300, 250, 200, 150, 100] : List ℤ).map (fun p : ℤ =>
            ((t : ℝ) + (1000 - (p : ℝ)) * skewFactor, (p : ℝ)))) ∧
    isothermCurves true =
      ([-80, -60, -40, -20, 0, 20, 40] : List ℤ).map (fun t : ℤ =>
        ([1050, 950, 850, 750, 650, 550, 450, 350, 250, 150] : List ℤ).map (fun p : ℤ =>
          ((t : ℝ) + (1000 - (p : ℝ)) * skewFactor, (p : ℝ)))) := by
  constructor
  · simp [isothermCurves, isothermCurve, isothermStep, pressureStep, loopUp, loopDown]
  · simp [isothermCurves, isothermCurve, isothermStep, pressureStep, loopUp, loopDown]

end Vartovsk
